import Mathlib

/-!
Verification of the `policy-reporter-fsm` repository: a generic immutable
deterministic finite automaton engine (`src/fsm/automaton.py`,
`src/fsm/exceptions.py`) and its mod-three example consumer
(`examples/mod_three.py`).

States and symbols are opaque caller-supplied types with decidable
equality (Python: hashable/comparable).  `frozenset` fields become
`Finset`, the `transitions` dict becomes an association list (Python
dicts are iterated in insertion order during validation and looked up
by key in `step`), and every raising operation becomes `Except`.
-/

universe u v

deriving instance DecidableEq for Except

/-- The three exception classes of `fsm/exceptions.py`:
`InvalidStateError`, `InvalidSymbolError`, `InvalidTransitionError`. -/
inductive ErrKind where
  | invalidState
  | invalidSymbol
  | invalidTransition
deriving DecidableEq, Repr

/-- Structured rendering of every distinct raise site in
`fsm/automaton.py`.  Each constructor corresponds to one `raise`
statement and carries the diagnostic payload that the Python message
interpolates; `FSMError.kind` recovers the exception class. -/
inductive FSMError (σ : Type u) (α : Type v) where
  | initialStateNotInStates (s : σ)
  | acceptingStatesNotSubset (bad : Finset σ)
  | stateNotInStates (s : σ)
  | symbolNotInAlphabet (a : α)
  | noTransitionDefined (s : σ) (a : α)
  | transitionSourceNotInStates (s : σ)
  | transitionSymbolNotInAlphabet (a : α)
  | transitionTargetNotInStates (s : σ)
deriving DecidableEq

/-- Which Python exception class a given raise site belongs to. -/
def FSMError.kind {σ : Type u} {α : Type v} : FSMError σ α → ErrKind
  | .initialStateNotInStates _ => .invalidState
  | .acceptingStatesNotSubset _ => .invalidState
  | .stateNotInStates _ => .invalidState
  | .symbolNotInAlphabet _ => .invalidSymbol
  | .noTransitionDefined _ _ => .invalidTransition
  | .transitionSourceNotInStates _ => .invalidTransition
  | .transitionSymbolNotInAlphabet _ => .invalidTransition
  | .transitionTargetNotInStates _ => .invalidTransition

/-- First-match lookup in an association list; models `dict[key]` /
`key in dict` (Python dict keys are unique, so first match is the
match). -/
def dictLookup {κ : Type u} {β : Type v} [DecidableEq κ] : List (κ × β) → κ → Option β
  | [], _ => none
  | (k, v) :: rest, key => if k = key then some v else dictLookup rest key

/-- The frozen dataclass `FiniteAutomaton` of `fsm/automaton.py`:
the 5-tuple (Q, Σ, q0, F, δ).  `transitions` keeps the entry list of
the dict. -/
structure FiniteAutomaton (σ : Type u) (α : Type v) where
  states : Finset σ
  alphabet : Finset α
  initial_state : σ
  accepting_states : Finset σ
  transitions : List ((σ × α) × σ)

namespace FiniteAutomaton

variable {σ : Type u} {α : Type v} [DecidableEq σ] [DecidableEq α]

/-- The transition-validation loop inside `FiniteAutomaton._validate`
(lines 60-73): for each dict entry in order, check source, then
symbol, then target. -/
def validateEntries (states : Finset σ) (alphabet : Finset α) :
    List ((σ × α) × σ) → Except (FSMError σ α) Unit
  | [] => .ok ()
  | ((source_state, symbol), target_state) :: rest =>
    if source_state ∉ states then
      .error (.transitionSourceNotInStates source_state)
    else if symbol ∉ alphabet then
      .error (.transitionSymbolNotInAlphabet symbol)
    else if target_state ∉ states then
      .error (.transitionTargetNotInStates target_state)
    else
      validateEntries states alphabet rest

/-- `FiniteAutomaton._validate` (lines 37-73): initial state, then
accepting states, then every transition entry. -/
def validate (A : FiniteAutomaton σ α) : Except (FSMError σ α) Unit :=
  if A.initial_state ∉ A.states then
    .error (.initialStateNotInStates A.initial_state)
  else if ¬ A.accepting_states ⊆ A.states then
    .error (.acceptingStatesNotSubset (A.accepting_states \ A.states))
  else
    validateEntries A.states A.alphabet A.transitions

/-- Construction: the dataclass `__init__` followed by
`__post_init__`, which runs `_validate` and either raises or leaves
the frozen instance as built. -/
def new (states : Finset σ) (alphabet : Finset α) (initial_state : σ)
    (accepting_states : Finset σ) (transitions : List ((σ × α) × σ)) :
    Except (FSMError σ α) (FiniteAutomaton σ α) :=
  let A : FiniteAutomaton σ α :=
    ⟨states, alphabet, initial_state, accepting_states, transitions⟩
  match A.validate with
  | .error e => .error e
  | .ok _ => .ok A

/-- `FiniteAutomaton.step` (lines 75-103): membership checks in order,
then the dict lookup. -/
def step (A : FiniteAutomaton σ α) (state : σ) (symbol : α) :
    Except (FSMError σ α) σ :=
  if state ∉ A.states then
    .error (.stateNotInStates state)
  else if symbol ∉ A.alphabet then
    .error (.symbolNotInAlphabet symbol)
  else
    match dictLookup A.transitions (state, symbol) with
    | none => .error (.noTransitionDefined state symbol)
    | some target => .ok target

/-- The loop body of `FiniteAutomaton.process` (lines 119-124),
with the running `current_state` made explicit. -/
def processFrom (A : FiniteAutomaton σ α) (current_state : σ) :
    List α → Except (FSMError σ α) σ
  | [] => .ok current_state
  | symbol :: rest =>
    match A.step current_state symbol with
    | .error e => .error e
    | .ok next => A.processFrom next rest

/-- `FiniteAutomaton.process` (lines 105-124): fold `step` over the
input starting from `initial_state`. -/
def process (A : FiniteAutomaton σ α) (input_sequence : List α) :
    Except (FSMError σ α) σ :=
  A.processFrom A.initial_state input_sequence

/-- `FiniteAutomaton.accepts` (lines 126-141): run `process`, then test
membership in `accepting_states`; an exception propagates unchanged. -/
def accepts (A : FiniteAutomaton σ α) (input_sequence : List α) :
    Except (FSMError σ α) Bool :=
  match A.process input_sequence with
  | .error e => .error e
  | .ok final_state => .ok (decide (final_state ∈ A.accepting_states))

/-- `FiniteAutomaton.is_complete` (lines 143-155): compare the number
of transition entries with |Q| × |Σ|. -/
def is_complete (A : FiniteAutomaton σ α) : Bool :=
  A.transitions.length == A.states.card * A.alphabet.card

end FiniteAutomaton

/-! The mod-three example consumer, `examples/mod_three.py`.  Its
symbols are the one-character strings `"0"`, `"1"`, modelled as
`Char`; a `binary_input` string is its list of characters. -/

/-- The `ModThreeState` enum of `examples/mod_three.py`. -/
inductive ModThreeState where
  | S0
  | S1
  | S2
deriving DecidableEq, Repr

/-- `_MOD_THREE_AUTOMATON` (lines 37-51): the fixed 3-state automaton
over the binary alphabet, every state accepting. -/
def MOD_THREE_AUTOMATON : FiniteAutomaton ModThreeState Char where
  states := {ModThreeState.S0, ModThreeState.S1, ModThreeState.S2}
  alphabet := {'0', '1'}
  initial_state := ModThreeState.S0
  accepting_states := {ModThreeState.S0, ModThreeState.S1, ModThreeState.S2}
  transitions :=
    [ ((ModThreeState.S0, '0'), ModThreeState.S0),
      ((ModThreeState.S0, '1'), ModThreeState.S1),
      ((ModThreeState.S1, '0'), ModThreeState.S2),
      ((ModThreeState.S1, '1'), ModThreeState.S0),
      ((ModThreeState.S2, '0'), ModThreeState.S1),
      ((ModThreeState.S2, '1'), ModThreeState.S2) ]

/-- `_STATE_TO_REMAINDER` (lines 54-58): the final-state → remainder
dict. -/
def STATE_TO_REMAINDER : List (ModThreeState × Nat) :=
  [(ModThreeState.S0, 0), (ModThreeState.S1, 1), (ModThreeState.S2, 2)]

/-- The failure modes of `mod_three`: the `ValueError` raised for an
empty input (a caller-level condition, not an `FSMError`), an engine
`FSMError` propagating out of `process`, and the `KeyError` a failed
`_STATE_TO_REMAINDER[final_state]` lookup would raise. -/
inductive ModThreeError where
  | emptyInput
  | engine (e : FSMError ModThreeState Char)
  | keyError (s : ModThreeState)
deriving DecidableEq

/-- The body of `mod_three` (lines 61-80) with the automaton and the
remainder table as parameters: empty-input check first (before the
engine is ever consulted), then `process`, then the dict lookup. -/
def mod_three_with (A : FiniteAutomaton ModThreeState Char)
    (table : List (ModThreeState × Nat)) (binary_input : List Char) :
    Except ModThreeError Nat :=
  if binary_input.isEmpty then
    .error .emptyInput
  else
    match A.process binary_input with
    | .error e => .error (.engine e)
    | .ok final_state =>
      match dictLookup table final_state with
      | none => .error (.keyError final_state)
      | some r => .ok r

/-- `mod_three` (lines 61-80): the body applied to the module-level
`_MOD_THREE_AUTOMATON` and `_STATE_TO_REMAINDER`. -/
def mod_three (binary_input : List Char) : Except ModThreeError Nat :=
  mod_three_with MOD_THREE_AUTOMATON STATE_TO_REMAINDER binary_input

/-- The binary rendering used by the spec and the test-suite
(`bin(n)[2:]` in `tests/test_mod_three.py`): most-significant bit
first, no leading zeros, except that 0 renders as `"0"`. -/
def binDigitsAux : Nat → Nat → List Char
  | _, 0 => []
  | 0, _ + 1 => []
  | fuel + 1, n + 1 =>
    binDigitsAux fuel ((n + 1) / 2) ++ [if (n + 1) % 2 = 1 then '1' else '0']

/-- Binary digit list of `n`, most-significant bit first; empty for 0.
The fuel argument of `binDigitsAux` only makes the recursion
structural: `n` itself is always enough fuel. -/
def binDigits (n : Nat) : List Char := binDigitsAux n n

/-- `binary_of n`: the string `bin(n)[2:]` as a character list. -/
def binary_of (n : Nat) : List Char :=
  if n = 0 then ['0'] else binDigits n

/-- Spec-side rendering of the §8 Process/step equivalence property:
the left-to-right fold of `step` over the sequence, starting from a
given state, in the error monad.  Written from the words of the spec,
to be compared with `FiniteAutomaton.process`. -/
def foldStepSpec {σ : Type u} {α : Type v} [DecidableEq σ] [DecidableEq α]
    (A : FiniteAutomaton σ α) (init : σ) (xs : List α) :
    Except (FSMError σ α) σ :=
  xs.foldl
    (fun acc symbol =>
      match acc with
      | .error e => .error e
      | .ok s => A.step s symbol)
    (.ok init)

/-! ## Helper lemmas -/

section Helpers

variable {σ : Type u} {α : Type v} [DecidableEq σ] [DecidableEq α]

theorem dictLookup_mem {κ : Type u} {β : Type v} [DecidableEq κ]
    {l : List (κ × β)} {k : κ} {v : β} (h : dictLookup l k = some v) :
    (k, v) ∈ l := by
  induction l with
  | nil => simp [dictLookup] at h
  | cons p rest ih =>
    obtain ⟨k0, v0⟩ := p
    by_cases hk : k0 = k
    · simp [dictLookup, hk] at h
      simp [hk, h]
    · simp [dictLookup, hk] at h
      exact List.mem_cons_of_mem _ (ih h)

theorem processFrom_append (A : FiniteAutomaton σ α) (xs ys : List α) (s : σ) :
    A.processFrom s (xs ++ ys) =
      match A.processFrom s xs with
      | .error e => .error e
      | .ok s2 => A.processFrom s2 ys := by
  induction xs generalizing s with
  | nil => simp [FiniteAutomaton.processFrom]
  | cons a xs ih =>
    simp only [List.cons_append, FiniteAutomaton.processFrom]
    cases A.step s a with
    | error e => rfl
    | ok s2 => exact ih s2

theorem foldStepSpec_error (A : FiniteAutomaton σ α) (xs : List α)
    (e : FSMError σ α) :
    xs.foldl
      (fun (acc : Except (FSMError σ α) σ) symbol =>
        match acc with
        | .error e2 => .error e2
        | .ok s => A.step s symbol)
      (.error e) = .error e := by
  induction xs with
  | nil => rfl
  | cons a xs ih => exact ih

theorem processFrom_eq_foldStepSpec (A : FiniteAutomaton σ α)
    (xs : List α) (s : σ) :
    A.processFrom s xs = foldStepSpec A s xs := by
  induction xs generalizing s with
  | nil => rfl
  | cons a xs ih =>
    simp only [FiniteAutomaton.processFrom, foldStepSpec, List.foldl_cons]
    cases hs : A.step s a with
    | error e => exact (foldStepSpec_error A xs e).symm
    | ok s2 => exact ih s2

theorem validateEntries_ok_iff (states : Finset σ) (alphabet : Finset α)
    (ts : List ((σ × α) × σ)) :
    FiniteAutomaton.validateEntries states alphabet ts = .ok () ↔
      ∀ tr ∈ ts, tr.1.1 ∈ states ∧ tr.1.2 ∈ alphabet ∧ tr.2 ∈ states := by
  induction ts with
  | nil => simp [FiniteAutomaton.validateEntries]
  | cons tr rest ih =>
    obtain ⟨⟨src, sym⟩, tgt⟩ := tr
    by_cases h1 : src ∈ states
    · by_cases h2 : sym ∈ alphabet
      · by_cases h3 : tgt ∈ states
        · simp [FiniteAutomaton.validateEntries, h1, h2, h3, ih]
        · simp [FiniteAutomaton.validateEntries, h1, h2, h3]
      · simp [FiniteAutomaton.validateEntries, h1, h2]
    · simp [FiniteAutomaton.validateEntries, h1]

theorem validateEntries_error_kind (states : Finset σ) (alphabet : Finset α)
    (ts : List ((σ × α) × σ)) (e : FSMError σ α)
    (h : FiniteAutomaton.validateEntries states alphabet ts = .error e) :
    e.kind = ErrKind.invalidTransition := by
  induction ts with
  | nil => simp [FiniteAutomaton.validateEntries] at h
  | cons tr rest ih =>
    obtain ⟨⟨src, sym⟩, tgt⟩ := tr
    by_cases h1 : src ∈ states
    · by_cases h2 : sym ∈ alphabet
      · by_cases h3 : tgt ∈ states
        · simp only [FiniteAutomaton.validateEntries, h1, h2, h3,
            not_true_eq_false, if_false] at h
          exact ih h
        · simp [FiniteAutomaton.validateEntries, h1, h2, h3] at h
          simp [← h, FSMError.kind]
      · simp [FiniteAutomaton.validateEntries, h1, h2] at h
        simp [← h, FSMError.kind]
    · simp [FiniteAutomaton.validateEntries, h1] at h
      simp [← h, FSMError.kind]

theorem validate_ok_iff (A : FiniteAutomaton σ α) :
    A.validate = .ok () ↔
      A.initial_state ∈ A.states ∧ A.accepting_states ⊆ A.states ∧
        ∀ tr ∈ A.transitions,
          tr.1.1 ∈ A.states ∧ tr.1.2 ∈ A.alphabet ∧ tr.2 ∈ A.states := by
  by_cases h1 : A.initial_state ∈ A.states
  · by_cases h2 : A.accepting_states ⊆ A.states
    · simp [FiniteAutomaton.validate, h1, h2, validateEntries_ok_iff]
    · simp [FiniteAutomaton.validate, h1, h2]
  · simp [FiniteAutomaton.validate, h1]

theorem except_unit_cases {ε : Type u} (r : Except ε Unit) :
    r = .ok () ∨ ∃ e, r = .error e := by
  cases r with
  | error e => exact Or.inr ⟨e, rfl⟩
  | ok u => cases u; exact Or.inl rfl

theorem new_eq_of_validate_ok (states : Finset σ) (alphabet : Finset α)
    (initial_state : σ) (accepting_states : Finset σ)
    (transitions : List ((σ × α) × σ))
    (h : (⟨states, alphabet, initial_state, accepting_states, transitions⟩ :
        FiniteAutomaton σ α).validate = .ok ()) :
    FiniteAutomaton.new states alphabet initial_state accepting_states
        transitions =
      .ok ⟨states, alphabet, initial_state, accepting_states, transitions⟩ := by
  simp [FiniteAutomaton.new, h]

theorem new_eq_of_validate_error (states : Finset σ) (alphabet : Finset α)
    (initial_state : σ) (accepting_states : Finset σ)
    (transitions : List ((σ × α) × σ)) {e : FSMError σ α}
    (h : (⟨states, alphabet, initial_state, accepting_states, transitions⟩ :
        FiniteAutomaton σ α).validate = .error e) :
    FiniteAutomaton.new states alphabet initial_state accepting_states
        transitions = .error e := by
  simp [FiniteAutomaton.new, h]

theorem step_ok_mem (A : FiniteAutomaton σ α)
    (hclosed : ∀ tr ∈ A.transitions, tr.2 ∈ A.states)
    {s : σ} {a : α} {t : σ} (h : A.step s a = .ok t) : t ∈ A.states := by
  by_cases h1 : s ∈ A.states
  · by_cases h2 : a ∈ A.alphabet
    · cases hl : dictLookup A.transitions (s, a) with
      | none => simp [FiniteAutomaton.step, h1, h2, hl] at h
      | some target =>
        have ht : target = t := by
          simp [FiniteAutomaton.step, h1, h2, hl] at h
          exact h
        subst ht
        exact hclosed _ (dictLookup_mem hl)
    · simp [FiniteAutomaton.step, h1, h2] at h
  · simp [FiniteAutomaton.step, h1] at h

theorem step_error_of_mem (A : FiniteAutomaton σ α) {s : σ} {a : α}
    {e : FSMError σ α} (hs : s ∈ A.states) (h : A.step s a = .error e) :
    e = .symbolNotInAlphabet a ∨ e = .noTransitionDefined s a := by
  by_cases h2 : a ∈ A.alphabet
  · cases hl : dictLookup A.transitions (s, a) with
    | none =>
      simp [FiniteAutomaton.step, hs, h2, hl] at h
      exact Or.inr h.symm
    | some t => simp [FiniteAutomaton.step, hs, h2, hl] at h
  · simp [FiniteAutomaton.step, hs, h2] at h
    exact Or.inl h.symm

theorem processFrom_error_shape (A : FiniteAutomaton σ α)
    (hclosed : ∀ tr ∈ A.transitions, tr.2 ∈ A.states) :
    ∀ (xs : List α) (s : σ), s ∈ A.states →
      ∀ e, A.processFrom s xs = .error e →
        (∃ a, e = .symbolNotInAlphabet a) ∨
          (∃ s2 a, e = .noTransitionDefined s2 a) := by
  intro xs
  induction xs with
  | nil =>
    intro s _ e h
    simp [FiniteAutomaton.processFrom] at h
  | cons a xs ih =>
    intro s hs e h
    simp only [FiniteAutomaton.processFrom] at h
    cases hstep : A.step s a with
    | error e2 =>
      rw [hstep] at h
      simp only [Except.error.injEq] at h
      subst h
      rcases step_error_of_mem A hs hstep with h2 | h2
      · exact Or.inl ⟨a, h2⟩
      · exact Or.inr ⟨s, a, h2⟩
    | ok s2 =>
      rw [hstep] at h
      exact ih s2 (step_ok_mem A hclosed hstep) e h

theorem modThree_step_good (s : ModThreeState) (a : Char)
    (ha : a = '0' ∨ a = '1') :
    ∃ s2, MOD_THREE_AUTOMATON.step s a = .ok s2 := by
  cases s <;> rcases ha with rfl | rfl <;> exact ⟨_, rfl⟩

theorem modThree_step_bad (s : ModThreeState) (a : Char)
    (ha : ¬(a = '0' ∨ a = '1')) :
    MOD_THREE_AUTOMATON.step s a = .error (.symbolNotInAlphabet a) := by
  have hs : s ∈ MOD_THREE_AUTOMATON.states := by cases s <;> decide
  have hna : a ∉ MOD_THREE_AUTOMATON.alphabet := by
    intro hmem
    apply ha
    have h2 : a ∈ ({'0', '1'} : Finset Char) := hmem
    simpa using h2
  simp [FiniteAutomaton.step, hs, hna]

theorem modThree_processFrom_bad :
    ∀ (cs : List Char) (s : ModThreeState),
      (∃ c ∈ cs, ¬(c = '0' ∨ c = '1')) →
      ∃ e, MOD_THREE_AUTOMATON.processFrom s cs = .error e ∧
        e.kind = ErrKind.invalidSymbol := by
  intro cs
  induction cs with
  | nil =>
    rintro s ⟨c, hc, _⟩
    simp at hc
  | cons a cs ih =>
    rintro s ⟨c, hc, hbad⟩
    by_cases ha : a = '0' ∨ a = '1'
    · obtain ⟨s2, hs2⟩ := modThree_step_good s a ha
      have hcs : c ∈ cs := by
        rcases List.mem_cons.mp hc with rfl | h2
        · exact absurd ha hbad
        · exact h2
      obtain ⟨e, he, hk⟩ := ih s2 ⟨c, hcs, hbad⟩
      exact ⟨e, by simp [FiniteAutomaton.processFrom, hs2, he], hk⟩
    · refine ⟨.symbolNotInAlphabet a, ?_, rfl⟩
      simp [FiniteAutomaton.processFrom, modThree_step_bad s a ha]

end Helpers

/-! ## Claim theorems -/

section Claims

variable {σ : Type u} {α : Type v} [DecidableEq σ] [DecidableEq α]

/-- Claim C1: for every automaton and arbitrary caller-supplied state
and symbol, `step` fails with an InvalidState error when the state is
not in `states`; otherwise with an InvalidSymbol error when the symbol
is not in `alphabet`; otherwise with an InvalidTransition error when
`(state, symbol)` has no entry in `transitions`; and otherwise
succeeds, returning exactly `transitions[(state, symbol)]`.  The
checks happen in that order. -/
theorem step_checks_in_order (A : FiniteAutomaton σ α) (state : σ) (symbol : α) :
    (state ∉ A.states →
      A.step state symbol = .error (.stateNotInStates state) ∧
        (FSMError.stateNotInStates state : FSMError σ α).kind =
          ErrKind.invalidState) ∧
    (state ∈ A.states → symbol ∉ A.alphabet →
      A.step state symbol = .error (.symbolNotInAlphabet symbol) ∧
        (FSMError.symbolNotInAlphabet symbol : FSMError σ α).kind =
          ErrKind.invalidSymbol) ∧
    (state ∈ A.states → symbol ∈ A.alphabet →
      dictLookup A.transitions (state, symbol) = none →
      A.step state symbol = .error (.noTransitionDefined state symbol) ∧
        (FSMError.noTransitionDefined state symbol : FSMError σ α).kind =
          ErrKind.invalidTransition) ∧
    (∀ target, state ∈ A.states → symbol ∈ A.alphabet →
      dictLookup A.transitions (state, symbol) = some target →
      A.step state symbol = .ok target) := by
  refine ⟨?_, ?_, ?_, ?_⟩ <;>
    intros <;> simp_all [FiniteAutomaton.step, FSMError.kind]

theorem step_checks_in_order_witness :
    MOD_THREE_AUTOMATON.step ModThreeState.S0 '1' = .ok ModThreeState.S1 :=
  (step_checks_in_order MOD_THREE_AUTOMATON ModThreeState.S0 '1').2.2.2
    ModThreeState.S1 (by decide) (by decide) (by decide)

/-- Claim C2: `process` equals the left-to-right fold of `step` over
the input starting from `initial_state`; in particular the empty
sequence yields `initial_state` with no lookups performed. -/
theorem process_eq_fold_of_step (A : FiniteAutomaton σ α) (xs : List α) :
    A.process xs = foldStepSpec A A.initial_state xs ∧
      A.process ([] : List α) = .ok A.initial_state :=
  ⟨processFrom_eq_foldStepSpec A xs A.initial_state, rfl⟩

theorem process_eq_fold_of_step_witness :
    MOD_THREE_AUTOMATON.process [] = .ok ModThreeState.S0 :=
  (process_eq_fold_of_step MOD_THREE_AUTOMATON []).2

/-- Claim C4: whenever `process` succeeds with final state `s`,
`accepts` succeeds and returns the membership test of `s` in
`accepting_states`; whenever `process` fails, `accepts` fails with the
identical error. -/
theorem accepts_agrees_with_process (A : FiniteAutomaton σ α) (xs : List α) :
    (∀ s, A.process xs = .ok s →
      A.accepts xs = .ok (decide (s ∈ A.accepting_states))) ∧
    (∀ e, A.process xs = .error e → A.accepts xs = .error e) := by
  constructor
  · intro s h
    simp [FiniteAutomaton.accepts, h]
  · intro e h
    simp [FiniteAutomaton.accepts, h]

theorem accepts_agrees_with_process_witness :
    MOD_THREE_AUTOMATON.accepts ['1'] =
      .ok (decide (ModThreeState.S1 ∈ MOD_THREE_AUTOMATON.accepting_states)) :=
  (accepts_agrees_with_process MOD_THREE_AUTOMATON ['1']).1
    ModThreeState.S1 (by decide)

/-- Claim C5: if the prefix `xs` processes normally to `s` and `step`
fails on the next symbol `a` with error `e`, then `process` on the
whole sequence fails with exactly that error, whatever symbols follow
(no further symbol is consumed). -/
theorem process_short_circuits_on_first_error (A : FiniteAutomaton σ α)
    (xs ys : List α) (a : α) (s : σ) (e : FSMError σ α)
    (hpre : A.process xs = .ok s) (hstep : A.step s a = .error e) :
    A.process (xs ++ a :: ys) = .error e := by
  unfold FiniteAutomaton.process at hpre ⊢
  rw [processFrom_append, hpre]
  simp [FiniteAutomaton.processFrom, hstep]

theorem process_short_circuits_on_first_error_witness :
    MOD_THREE_AUTOMATON.process (['1'] ++ '2' :: ['0', '1']) =
      .error (.symbolNotInAlphabet '2') :=
  process_short_circuits_on_first_error MOD_THREE_AUTOMATON ['1'] ['0', '1']
    '2' ModThreeState.S1 (FSMError.symbolNotInAlphabet '2')
    (by decide) (by decide)

omit [DecidableEq σ] [DecidableEq α] in
/-- Claim C6: `is_complete` is true exactly when the number of
transition entries equals |states| × |alphabet|; the count comparison
is the sole criterion. -/
theorem is_complete_iff_count (A : FiniteAutomaton σ α) :
    A.is_complete = true ↔
      A.transitions.length = A.states.card * A.alphabet.card := by
  simp [FiniteAutomaton.is_complete]

theorem is_complete_iff_count_witness :
    MOD_THREE_AUTOMATON.is_complete = true :=
  (is_complete_iff_count MOD_THREE_AUTOMATON).mpr (by decide)

/-- Claim C3: construction succeeds iff the initial state is in
`states`, the accepting states form a subset of `states`, and every
transition entry is within bounds; on success the five fields equal
the inputs exactly; an initial-state or accepting-states violation
yields an InvalidState error, and (with the earlier checks passing) a
transition-entry violation yields an InvalidTransition error. -/
theorem construction_validity_and_rejection (states : Finset σ)
    (alphabet : Finset α) (initial_state : σ) (accepting_states : Finset σ)
    (transitions : List ((σ × α) × σ)) :
    (FiniteAutomaton.new states alphabet initial_state accepting_states
          transitions =
        .ok ⟨states, alphabet, initial_state, accepting_states, transitions⟩ ↔
      initial_state ∈ states ∧ accepting_states ⊆ states ∧
        ∀ tr ∈ transitions,
          tr.1.1 ∈ states ∧ tr.1.2 ∈ alphabet ∧ tr.2 ∈ states) ∧
    (∀ B, FiniteAutomaton.new states alphabet initial_state accepting_states
          transitions = .ok B →
      B.states = states ∧ B.alphabet = alphabet ∧
        B.initial_state = initial_state ∧
        B.accepting_states = accepting_states ∧ B.transitions = transitions) ∧
    (initial_state ∉ states →
      ∃ e, FiniteAutomaton.new states alphabet initial_state accepting_states
          transitions = .error e ∧ e.kind = ErrKind.invalidState) ∧
    (initial_state ∈ states → ¬ accepting_states ⊆ states →
      ∃ e, FiniteAutomaton.new states alphabet initial_state accepting_states
          transitions = .error e ∧ e.kind = ErrKind.invalidState) ∧
    (initial_state ∈ states → accepting_states ⊆ states →
      ¬ (∀ tr ∈ transitions,
          tr.1.1 ∈ states ∧ tr.1.2 ∈ alphabet ∧ tr.2 ∈ states) →
      ∃ e, FiniteAutomaton.new states alphabet initial_state accepting_states
          transitions = .error e ∧ e.kind = ErrKind.invalidTransition) := by
  refine ⟨⟨?_, ?_⟩, ?_, ?_, ?_, ?_⟩
  · intro h
    rcases except_unit_cases ((⟨states, alphabet, initial_state,
        accepting_states, transitions⟩ : FiniteAutomaton σ α).validate) with
      hv | ⟨e, hv⟩
    · exact (validate_ok_iff _).mp hv
    · rw [new_eq_of_validate_error _ _ _ _ _ hv] at h
      exact absurd h (by simp)
  · intro hcond
    exact new_eq_of_validate_ok _ _ _ _ _ ((validate_ok_iff _).mpr hcond)
  · intro B h
    rcases except_unit_cases ((⟨states, alphabet, initial_state,
        accepting_states, transitions⟩ : FiniteAutomaton σ α).validate) with
      hv | ⟨e, hv⟩
    · rw [new_eq_of_validate_ok _ _ _ _ _ hv] at h
      simp only [Except.ok.injEq] at h
      subst h
      exact ⟨rfl, rfl, rfl, rfl, rfl⟩
    · rw [new_eq_of_validate_error _ _ _ _ _ hv] at h
      exact absurd h (by simp)
  · intro h1
    refine ⟨.initialStateNotInStates initial_state,
      new_eq_of_validate_error _ _ _ _ _ ?_, rfl⟩
    simp [FiniteAutomaton.validate, h1]
  · intro h1 h2
    refine ⟨.acceptingStatesNotSubset (accepting_states \ states),
      new_eq_of_validate_error _ _ _ _ _ ?_, rfl⟩
    simp [FiniteAutomaton.validate, h1, h2]
  · intro h1 h2 h3
    rcases except_unit_cases (FiniteAutomaton.validateEntries states alphabet
        transitions) with hv | ⟨e, hv⟩
    · exact absurd ((validateEntries_ok_iff _ _ _).mp hv) h3
    · refine ⟨e, new_eq_of_validate_error _ _ _ _ _ ?_,
        validateEntries_error_kind _ _ _ _ hv⟩
      simp [FiniteAutomaton.validate, h1, h2, hv]

theorem construction_validity_and_rejection_witness :
    FiniteAutomaton.new MOD_THREE_AUTOMATON.states MOD_THREE_AUTOMATON.alphabet
        MOD_THREE_AUTOMATON.initial_state MOD_THREE_AUTOMATON.accepting_states
        MOD_THREE_AUTOMATON.transitions =
      .ok ⟨MOD_THREE_AUTOMATON.states, MOD_THREE_AUTOMATON.alphabet,
        MOD_THREE_AUTOMATON.initial_state, MOD_THREE_AUTOMATON.accepting_states,
        MOD_THREE_AUTOMATON.transitions⟩ :=
  (construction_validity_and_rejection _ _ _ _ _).1.mpr (by decide)

/-- Claim C9: for a validly constructed automaton, `process` (and
hence `accepts`) never fails with an InvalidState error: any error it
returns is of the InvalidSymbol or InvalidTransition kind. -/
theorem valid_process_never_invalid_state (A : FiniteAutomaton σ α)
    (hA : A.validate = .ok ()) (xs : List α) (e : FSMError σ α)
    (he : A.process xs = .error e) :
    e.kind ≠ ErrKind.invalidState ∧
      (e.kind = ErrKind.invalidSymbol ∨ e.kind = ErrKind.invalidTransition) := by
  obtain ⟨hinit, _hacc, hent⟩ := (validate_ok_iff A).mp hA
  have hclosed : ∀ tr ∈ A.transitions, tr.2 ∈ A.states :=
    fun tr htr => (hent tr htr).2.2
  rcases processFrom_error_shape A hclosed xs A.initial_state hinit e he with
    ⟨a, rfl⟩ | ⟨s2, a, rfl⟩
  · exact ⟨by simp [FSMError.kind], Or.inl rfl⟩
  · exact ⟨by simp [FSMError.kind], Or.inr rfl⟩

/-- Claim C7: for every n in [0, 99], `mod_three` applied to the
binary representation of n returns n % 3; in particular the four
listed example strings evaluate as stated (leading zeros ignored). -/
theorem mod_three_correct_on_range :
    (∀ n : Nat, n ≤ 99 → mod_three (binary_of n) = .ok (n % 3)) ∧
      mod_three ['1', '1', '0', '1'] = .ok 1 ∧
      mod_three ['1', '1', '1', '0'] = .ok 2 ∧
      mod_three ['1', '1', '1', '1'] = .ok 0 ∧
      mod_three ['0', '0', '0', '1'] = .ok 1 := by
  refine ⟨?_, by decide, by decide, by decide, by decide⟩
  have h : ∀ n : Nat, n < 100 → mod_three (binary_of n) = .ok (n % 3) := by
    decide
  exact fun n hn => h n (by omega)

theorem mod_three_correct_on_range_witness :
    mod_three (binary_of 13) = .ok (13 % 3) :=
  mod_three_correct_on_range.1 13 (by decide)

/-- Claim C8: `mod_three` on the empty string fails with the
distinguished EmptyInput condition — a constructor distinct from every
engine error, produced before the engine is consulted (for any
automaton and any table) — and `mod_three` on "102" fails with an
InvalidSymbol engine error for the character 2. -/
theorem mod_three_empty_and_invalid_symbol :
    (∀ (A : FiniteAutomaton ModThreeState Char)
        (table : List (ModThreeState × Nat)),
      mod_three_with A table [] = .error .emptyInput) ∧
    mod_three [] = .error .emptyInput ∧
    (∀ e : FSMError ModThreeState Char,
      ModThreeError.emptyInput ≠ ModThreeError.engine e) ∧
    (∀ cs : List Char, (∃ c ∈ cs, ¬(c = '0' ∨ c = '1')) →
      ∃ e, mod_three cs = .error (.engine e) ∧
        e.kind = ErrKind.invalidSymbol) ∧
    mod_three ['1', '0', '2'] =
      .error (.engine (.symbolNotInAlphabet '2')) ∧
    (FSMError.symbolNotInAlphabet '2' : FSMError ModThreeState Char).kind =
      ErrKind.invalidSymbol := by
  refine ⟨fun _ _ => rfl, by decide, fun _ h => ModThreeError.noConfusion h,
    ?_, by decide, rfl⟩
  rintro cs ⟨c, hc, hbad⟩
  have hne : cs.isEmpty = false := by
    cases cs with
    | nil => simp at hc
    | cons a l => rfl
  obtain ⟨e, he, hk⟩ := modThree_processFrom_bad cs
    MOD_THREE_AUTOMATON.initial_state ⟨c, hc, hbad⟩
  refine ⟨e, ?_, hk⟩
  unfold mod_three mod_three_with FiniteAutomaton.process
  simp only [hne, Bool.false_eq_true, if_false]
  rw [he]

theorem mod_three_empty_and_invalid_symbol_witness :
    mod_three_with MOD_THREE_AUTOMATON STATE_TO_REMAINDER [] =
      .error .emptyInput :=
  mod_three_empty_and_invalid_symbol.1 MOD_THREE_AUTOMATON STATE_TO_REMAINDER

/-- Claim C10: whenever `mod_three` succeeds its result is 0, 1 or 2;
the state→remainder table is defined on every state (so its lookup
never fails and no KeyError-like failure is reachable); and `process`
on the mod-three automaton only ever succeeds with a member of its
state set. -/
theorem mod_three_result_in_range_and_lookup_total :
    (∀ (cs : List Char) (r : Nat), mod_three cs = .ok r →
      r = 0 ∨ r = 1 ∨ r = 2) ∧
    (∀ s : ModThreeState,
      ∃ r, dictLookup STATE_TO_REMAINDER s = some r ∧
        (r = 0 ∨ r = 1 ∨ r = 2)) ∧
    (∀ (cs : List Char) (s : ModThreeState),
      MOD_THREE_AUTOMATON.process cs = .ok s →
        s ∈ MOD_THREE_AUTOMATON.states) ∧
    (∀ (cs : List Char) (e : ModThreeError), mod_three cs = .error e →
      ∀ s, e ≠ .keyError s) := by
  have htable : ∀ s : ModThreeState,
      ∃ r, dictLookup STATE_TO_REMAINDER s = some r ∧
        (r = 0 ∨ r = 1 ∨ r = 2) := by
    intro s
    cases s with
    | S0 => exact ⟨0, rfl, Or.inl rfl⟩
    | S1 => exact ⟨1, rfl, Or.inr (Or.inl rfl)⟩
    | S2 => exact ⟨2, rfl, Or.inr (Or.inr rfl)⟩
  refine ⟨?_, htable, ?_, ?_⟩
  · intro cs r h
    unfold mod_three mod_three_with at h
    by_cases hemp : cs.isEmpty = true
    · simp [hemp] at h
    · simp only [hemp, if_false, Bool.false_eq_true] at h
      cases hp : MOD_THREE_AUTOMATON.process cs with
      | error e =>
        rw [hp] at h
        simp at h
      | ok fs =>
        rw [hp] at h
        dsimp only at h
        obtain ⟨r2, hl, hr2⟩ := htable fs
        rw [hl] at h
        simp only [Except.ok.injEq] at h
        exact h ▸ hr2
  · intro cs s _
    cases s <;> decide
  · intro cs e h s
    unfold mod_three mod_three_with at h
    by_cases hemp : cs.isEmpty = true
    · simp only [hemp, if_true, Except.error.injEq] at h
      exact h ▸ fun hc => ModThreeError.noConfusion hc
    · simp only [hemp, if_false, Bool.false_eq_true] at h
      cases hp : MOD_THREE_AUTOMATON.process cs with
      | error e2 =>
        rw [hp] at h
        simp only [Except.error.injEq] at h
        exact h ▸ fun hc => ModThreeError.noConfusion hc
      | ok fs =>
        rw [hp] at h
        dsimp only at h
        obtain ⟨r2, hl, _⟩ := htable fs
        rw [hl] at h
        simp at h

theorem mod_three_result_in_range_and_lookup_total_witness :
    (1 : Nat) = 0 ∨ (1 : Nat) = 1 ∨ (1 : Nat) = 2 :=
  mod_three_result_in_range_and_lookup_total.1 ['1'] 1 (by decide)

theorem valid_process_never_invalid_state_witness :
    (FSMError.symbolNotInAlphabet '2' : FSMError ModThreeState Char).kind ≠
        ErrKind.invalidState ∧
      ((FSMError.symbolNotInAlphabet '2' :
            FSMError ModThreeState Char).kind = ErrKind.invalidSymbol ∨
        (FSMError.symbolNotInAlphabet '2' :
            FSMError ModThreeState Char).kind = ErrKind.invalidTransition) :=
  valid_process_never_invalid_state MOD_THREE_AUTOMATON (by decide) ['2']
    (FSMError.symbolNotInAlphabet '2') (by decide)

end Claims
